import Mathlib

/-!
Verification of the tool-permission engine of the `continue` repository
(`core/tools/permissions/`): the pattern matcher (`matchesToolPattern`,
`matchesArguments`), the policy evaluator (`checkToolPermission`), the batch
filter (`filterExcludedTools`), the YAML-pattern normalizer
(`parseToolPattern`, `yamlConfigToPolicies`) and the service facade
(`ToolPermissionsService`).

The TypeScript sources are embedded shallowly:
- a JavaScript runtime value appearing in an argument record is modelled by
  `JValue` (strings, numbers as integers, booleans, `null`); a record
  `Record<string, any>` by an association list `JSArgs`; an absent key is
  `Option.none` (JavaScript `undefined`);
- the glob-to-`RegExp` compilation (`escape all metacharacters except * and ?`,
  then `* → .*`, `? → .`, anchored) is modelled by `tokenize` / `tokMatch`:
  every pattern character other than `*` and `?` is a literal, `?` matches one
  character that is not a line terminator and `*` a sequence of such characters
  (JavaScript's `.` never matches a line terminator);
- JavaScript truthiness (`if (x)`) is `jsTruthy`, `String(x)` is `jsString`,
  `x ?? ""` is `jsCoalesce`.
-/

namespace ContinuePermissions

/-- A JavaScript value that can appear in a tool-call argument record.
Numbers are modelled by integers; the claims under verification use only
strings, so the coarser numeric model is irrelevant to them. -/
inductive JValue where
  | str (s : String)
  | num (n : Int)
  | bool (b : Bool)
  | null
deriving DecidableEq, Repr

/-- A JavaScript object `Record<string, any>`: an association list from keys to
values.  An absent key (JavaScript `undefined`) is represented by a failing
lookup. -/
abbrev JSArgs : Type := List (String × JValue)

/-- Property access `args[key]`: the first binding of `key`, or `none`
(JavaScript `undefined`) when the key is absent. -/
def jsGet (args : JSArgs) (key : String) : Option JValue :=
  match args with
  | [] => none
  | (k, v) :: rest => if k = key then some v else jsGet rest key

/-- JavaScript truthiness of a value: `""`, `0`, `false` and `null` are falsy. -/
def jsTruthy : JValue → Bool
  | JValue.str s => !(s == "")
  | JValue.num n => !(n == 0)
  | JValue.bool b => b
  | JValue.null => false

/-- JavaScript truthiness of an optional value: `undefined` is falsy. -/
def jsTruthyOpt : Option JValue → Bool
  | none => false
  | some v => jsTruthy v

/-- JavaScript `String(v)` coercion. -/
def jsString : JValue → String
  | JValue.str s => s
  | JValue.num n => toString n
  | JValue.bool true => "true"
  | JValue.bool false => "false"
  | JValue.null => "null"

/-- JavaScript `v ?? ""`: replaces `undefined` and `null` by the empty
string, leaves every other value unchanged. -/
def jsCoalesce : Option JValue → JValue
  | none => JValue.str ""
  | some JValue.null => JValue.str ""
  | some v => v

/-- The characters JavaScript's `String.prototype.trim` removes: the ASCII
whitespace and line-terminator characters plus the Unicode space separators,
NBSP, BOM and the LINE/PARAGRAPH SEPARATOR characters. -/
def isJsWhitespace (c : Char) : Bool :=
  c == ' ' || c == '\t' || c == '\n' || c == '\r'
    || c == Char.ofNat 0x0b || c == Char.ofNat 0x0c
    || c == Char.ofNat 0xa0 || c == Char.ofNat 0x1680
    || (Char.ofNat 0x2000 ≤ c && c ≤ Char.ofNat 0x200a)
    || c == Char.ofNat 0x2028 || c == Char.ofNat 0x2029
    || c == Char.ofNat 0x202f || c == Char.ofNat 0x205f
    || c == Char.ofNat 0x3000 || c == Char.ofNat 0xfeff

/-- JavaScript `s.trim()`: strip the whitespace characters of
`isJsWhitespace` from both ends. -/
def jsTrim (s : String) : String :=
  String.mk (((s.data.dropWhile isJsWhitespace).reverse.dropWhile isJsWhitespace).reverse)

/-- One token of a compiled glob pattern.  The source escapes every regex
metacharacter except `*` and `?` and then maps `*` to `.*` and `?` to `.`,
so a pattern character is either the `*` wildcard, the `?` wildcard, or a
literal character. -/
inductive GlobTok where
  | star
  | qmark
  | lit (c : Char)
deriving DecidableEq, Repr

/-- Compile a glob pattern (as a character list) to its token list. -/
def tokenize (l : List Char) : List GlobTok :=
  l.map fun c =>
    if c = '*' then GlobTok.star
    else if c = '?' then GlobTok.qmark
    else GlobTok.lit c

/-- The characters that JavaScript's `.` (regex dot, no `s` flag) does not
match: LF, CR, LINE SEPARATOR and PARAGRAPH SEPARATOR. -/
def isLineTerminator (c : Char) : Bool :=
  c == '\n' || c == '\r' || c == Char.ofNat 0x2028 || c == Char.ofNat 0x2029

/-- The suffixes of `s` reachable by letting a `*` wildcard (compiled to `.*`)
consume an initial segment: the consumed characters must all be
non-line-terminators. -/
def starSuffixes : List Char → List (List Char)
  | [] => [[]]
  | c :: cs => (c :: cs) :: (if isLineTerminator c then [] else starSuffixes cs)

/-- Anchored matching of a compiled glob pattern against a character list,
with JavaScript `RegExp` semantics for the compiled `.*` / `.` atoms. -/
def tokMatch : List GlobTok → List Char → Bool
  | [], s => s.isEmpty
  | GlobTok.lit c :: ps, s =>
    match s with
    | [] => false
    | d :: ds => if c = d then tokMatch ps ds else false
  | GlobTok.qmark :: ps, s =>
    match s with
    | [] => false
    | d :: ds => if isLineTerminator d then false else tokMatch ps ds
  | GlobTok.star :: ps, s => (starSuffixes s).any fun t => tokMatch ps t

/-- `permissionChecker.ts`: compile `pattern` with `*`/`?` wildcards to an
anchored regex and test it against `s` (`new RegExp("^" + ... + "$").test(s)`). -/
def globMatch (pattern s : String) : Bool :=
  tokMatch (tokenize pattern.data) s.data

/-- Strip `lead` from the front of `l`; `none` when `lead` is not a prefix. -/
def dropLead : List Char → List Char → Option (List Char)
  | [], s => some s
  | c :: cs, d :: ds => if c = d then dropLead cs ds else none
  | _ :: _, [] => none

/-- `l.all` no character is a line terminator. -/
def lineTerminatorFree (l : List Char) : Bool :=
  l.all fun c => !isLineTerminator c

/-- Match the `(.+)\)$` part of the terminal-command pattern regex: `l` must be
`body ++ [')']` with `body` nonempty and free of line terminators (`.` in a
JavaScript regex does not match a line terminator). -/
def parenBody (l : List Char) : Option (List Char) :=
  if l.getLast? = some ')' ∧ 2 ≤ l.length ∧ lineTerminatorFree l.dropLast then
    some l.dropLast
  else none

/-- `permissionChecker.ts` lines 24-26: the match of `pattern` against
`/^(?:run_terminal_command|runTerminalCommand)\((.+)\)$/`, returning the
capture group when the regex matches. -/
def terminalCommandMatch (pattern : String) : Option String :=
  match dropLead "run_terminal_command(".data pattern.data with
  | some rest => (parenBody rest).map String.mk
  | none =>
    match dropLead "runTerminalCommand(".data pattern.data with
    | some rest => (parenBody rest).map String.mk
    | none => none

/-- `permissionChecker.ts` `matchesToolPattern` (lines 15-63): `"*"` and exact
name match first; then the terminal-command special shape, which requires the
terminal tool name and a truthy `command` argument; then generic glob matching
against the tool name; otherwise no match.  The optional `toolArguments`
parameter of the source is modelled by the argument record itself (an absent
record behaves exactly like an empty one). -/
def matchesToolPattern (toolName pattern : String) (toolArguments : JSArgs) : Bool :=
  if pattern = "*" then true
  else if pattern = toolName then true
  else
    match terminalCommandMatch pattern with
    | some commandPattern =>
      match jsGet toolArguments "command" with
      | some command =>
        if (toolName = "runTerminalCommand" ∨ toolName = "run_terminal_command")
            ∧ jsTruthy command = true then
          if commandPattern.data.contains '*' ∨ commandPattern.data.contains '?' then
            globMatch commandPattern (jsString command)
          else decide (command = JValue.str commandPattern)
        else false
      | none => false
    | none =>
      if pattern.data.contains '*' ∨ pattern.data.contains '?' then globMatch pattern toolName
      else false

/-- `permissionChecker.ts` `matchesArguments` loop body over
`Object.entries(patterns)`. -/
def matchesArgumentsLoop (args : JSArgs) : List (String × JValue) → Bool
  | [] => true
  | (key, pattern) :: rest =>
    if pattern = JValue.str "*" then matchesArgumentsLoop args rest
    else
      match pattern with
      | JValue.str p =>
        if p.data.contains '*' ∨ p.data.contains '?' then
          if globMatch p (jsString (jsCoalesce (jsGet args key))) then
            matchesArgumentsLoop args rest
          else false
        else if jsGet args key = some (JValue.str p) then matchesArgumentsLoop args rest
        else false
      | _ =>
        if jsGet args key = some pattern then matchesArgumentsLoop args rest
        else false

/-- `permissionChecker.ts` `matchesArguments` (lines 69-106): absent patterns
always match; otherwise every declared key must match. -/
def matchesArguments (args : JSArgs) (patterns : Option JSArgs) : Bool :=
  match patterns with
  | none => true
  | some ps => matchesArgumentsLoop args ps


/-- `types.ts` `PermissionPolicy`: the three decisions. -/
inductive PermissionPolicy where
  | allow
  | ask
  | exclude
deriving DecidableEq, Repr

/-- The `ToolPolicy` vocabulary of the `terminal-security` package. -/
inductive ToolPolicy where
  | allowedWithoutPermission
  | allowedWithPermission
  | disabled
deriving DecidableEq, Repr

/-- `permissionChecker.ts` `permissionPolicyToToolPolicy` (lines 111-124). -/
def permissionPolicyToToolPolicy : PermissionPolicy → ToolPolicy
  | PermissionPolicy.allow => ToolPolicy.allowedWithoutPermission
  | PermissionPolicy.ask => ToolPolicy.allowedWithPermission
  | PermissionPolicy.exclude => ToolPolicy.disabled

/-- `permissionChecker.ts` `toolPolicyToPermissionPolicy` (lines 129-140). -/
def toolPolicyToPermissionPolicy : ToolPolicy → PermissionPolicy
  | ToolPolicy.allowedWithoutPermission => PermissionPolicy.allow
  | ToolPolicy.allowedWithPermission => PermissionPolicy.ask
  | ToolPolicy.disabled => PermissionPolicy.exclude

/-- `types.ts` `ToolPermissionPolicy`: one permission rule. -/
structure ToolPermissionPolicy where
  tool : String
  permission : PermissionPolicy
  argumentMatches : Option JSArgs
deriving DecidableEq, Repr

/-- `types.ts` `ToolPermissions`: the ordered rule list. -/
structure ToolPermissions where
  policies : List ToolPermissionPolicy
deriving DecidableEq, Repr

/-- `types.ts` `PermissionCheckResult`. -/
structure PermissionCheckResult where
  permission : PermissionPolicy
  matchedPolicy : Option ToolPermissionPolicy
deriving DecidableEq, Repr

/-- The `function` member of a `Tool` definition (only its `name` is consulted
by the permission engine). -/
structure ToolFunction where
  name : String

/-- A `Tool`: its function descriptor and the optional dynamic
`evaluateToolCallPolicy` capability from the `terminal-security` package. -/
structure Tool where
  function : ToolFunction
  evaluateToolCallPolicy : Option (ToolPolicy → JSArgs → Option JSArgs → ToolPolicy)

/-- `permissionChecker.ts` lines 162-171: the first-match scan over the policy
list (`for ... if (matchesToolPattern ... && matchesArguments ...) break`). -/
def findMatchedPolicy (toolName : String) (toolArguments : JSArgs) :
    List ToolPermissionPolicy → Option ToolPermissionPolicy
  | [] => none
  | policy :: rest =>
    if matchesToolPattern toolName policy.tool toolArguments
        && matchesArguments toolArguments policy.argumentMatches then
      some policy
    else findMatchedPolicy toolName toolArguments rest

/-- `permissionChecker.ts` `checkToolPermission` (lines 148-213): static
first-match-wins base permission (default `allow`), then, when the tool has a
dynamic `evaluateToolCallPolicy` capability, the most restrictive of the base
and the dynamically evaluated permission (order `exclude > ask > allow`). -/
def checkToolPermission (toolName : String) (toolArguments : JSArgs)
    (permissions : ToolPermissions) (processedArgs : Option JSArgs)
    (tool : Option Tool) : PermissionCheckResult :=
  let matchedPolicy := findMatchedPolicy toolName toolArguments permissions.policies
  let basePermission :=
    (matchedPolicy.map ToolPermissionPolicy.permission).getD PermissionPolicy.allow
  match tool.bind Tool.evaluateToolCallPolicy with
  | some evaluatePolicy =>
    let basePolicy := permissionPolicyToToolPolicy basePermission
    let evaluatedPolicy := evaluatePolicy basePolicy toolArguments processedArgs
    let evaluatedPermission := toolPolicyToPermissionPolicy evaluatedPolicy
    if basePermission = PermissionPolicy.exclude
        ∨ evaluatedPermission = PermissionPolicy.exclude then
      ⟨PermissionPolicy.exclude, matchedPolicy⟩
    else if basePermission = PermissionPolicy.ask
        ∨ evaluatedPermission = PermissionPolicy.ask then
      ⟨PermissionPolicy.ask, matchedPolicy⟩
    else
      ⟨PermissionPolicy.allow, matchedPolicy⟩
  | none => ⟨basePermission, matchedPolicy⟩

/-- `permissionChecker.ts` `filterExcludedTools` (lines 219-233): keep the
tools whose empty-argument evaluation (with the tool itself passed for dynamic
evaluation) is not `exclude`. -/
def filterExcludedTools (tools : List Tool) (permissions : ToolPermissions) : List Tool :=
  tools.filter fun tool =>
    decide ((checkToolPermission tool.function.name [] permissions none (some tool)).permission
      ≠ PermissionPolicy.exclude)

/-- `permissionsYamlLoader.ts` lines 93-103: the tool-name → primary-argument
lookup table. -/
def toolArgMappings : List (String × String) :=
  [("run_terminal_command", "command"),
   ("runTerminalCommand", "command"),
   ("read_file", "file_path"),
   ("read_file_range", "file_path"),
   ("create_new_file", "file_path"),
   ("edit_existing_file", "file_path"),
   ("grep_search", "query"),
   ("file_glob_search", "pattern"),
   ("search_web", "query")]

/-- `permissionsYamlLoader.ts` line 76: the match of `pattern` against
`/^([^(]+)(?:\(([^)]*)\))?$/`: a nonempty tool-name part free of `'('`,
optionally followed by a parenthesized argument part free of `')'` that ends
the string.  Returns the two capture groups. -/
def toolPatternMatch (pattern : String) : Option (List Char × Option (List Char)) :=
  let name := pattern.data.takeWhile fun c => c != '('
  let rest := pattern.data.dropWhile fun c => c != '('
  if name = [] then none
  else
    match rest with
    | [] => some (name, none)
    | _ :: body =>
      if body.getLast? = some ')' ∧ (body.dropLast.all fun c => c != ')') then
        some (name, some body.dropLast)
      else none

/-- `permissionsYamlLoader.ts` `parseToolPattern` (lines 72-113): parse one
pattern string into a rule; a pattern the regex rejects throws
(`Except.error`).  An argument literal becomes an `argumentMatches` entry under
the tool-specific key from `toolArgMappings` (fallback key `"pattern"`). -/
def parseToolPattern (pattern : String) (permission : PermissionPolicy) :
    Except String ToolPermissionPolicy :=
  match toolPatternMatch pattern with
  | none => Except.error ("Invalid tool pattern: " ++ pattern)
  | some (toolNameChars, args) =>
    let normalizedName := jsTrim (String.mk toolNameChars)
    match args with
    | none => Except.ok ⟨normalizedName, permission, none⟩
    | some argChars =>
      let trimmedArgs := jsTrim (String.mk argChars)
      if trimmedArgs = "" then Except.ok ⟨normalizedName, permission, none⟩
      else
        let argKey := (toolArgMappings.lookup normalizedName).getD "pattern"
        Except.ok ⟨normalizedName, permission, some [(argKey, JValue.str trimmedArgs)]⟩

/-- `types.ts` `PermissionsYamlConfig`: the three optional pattern lists. -/
structure PermissionsYamlConfig where
  allow : Option (List String)
  ask : Option (List String)
  exclude : Option (List String)
deriving DecidableEq, Repr

/-- `permissionsYamlLoader.ts` `yamlConfigToPolicies` (lines 119-144):
normalize the config into a rule list, `exclude` rules first, then `ask`, then
`allow`, preserving intra-category order; a parse failure of any pattern
propagates (the source throws). -/
def yamlConfigToPolicies (config : PermissionsYamlConfig) :
    Except String (List ToolPermissionPolicy) := do
  let excludePolicies ← (config.exclude.getD []).mapM
    fun pattern => parseToolPattern pattern PermissionPolicy.exclude
  let askPolicies ← (config.ask.getD []).mapM
    fun pattern => parseToolPattern pattern PermissionPolicy.ask
  let allowPolicies ← (config.allow.getD []).mapM
    fun pattern => parseToolPattern pattern PermissionPolicy.allow
  return excludePolicies ++ askPolicies ++ allowPolicies

/-- The state of `ToolPermissionsService` consulted by `checkPermission` and
`isEnabled`: the loaded permissions (`null` when absent or failed) and the
`enabled` flag.  The file watcher handle plays no role in those methods and is
omitted. -/
structure ToolPermissionsService where
  permissions : Option ToolPermissions
  enabled : Bool

/-- `ToolPermissionsService.checkPermission` (lines 121-141): `allow` with no
matched policy when the service is not enabled or no permissions are loaded,
otherwise delegate to `checkToolPermission` with the tool passed through for
dynamic evaluation. -/
def ToolPermissionsService.checkPermission (service : ToolPermissionsService)
    (tool : Tool) (toolArguments : JSArgs) (processedArgs : Option JSArgs) :
    PermissionCheckResult :=
  match service.enabled, service.permissions with
  | true, some permissions =>
    checkToolPermission tool.function.name toolArguments permissions processedArgs (some tool)
  | _, _ => ⟨PermissionPolicy.allow, none⟩

/-- `ToolPermissionsService.isEnabled` (lines 146-148). -/
def ToolPermissionsService.isEnabled (service : ToolPermissionsService) : Bool :=
  service.enabled && service.permissions.isSome


/-- Rank of a decision in the spec's restrictiveness order
`exclude > ask > allow`. -/
def restrictivenessRank : PermissionPolicy → Nat
  | PermissionPolicy.allow => 0
  | PermissionPolicy.ask => 1
  | PermissionPolicy.exclude => 2

/-- The more restrictive of two decisions under the total order
`exclude > ask > allow` (spec section 4.2 step 4). -/
def moreRestrictive (a b : PermissionPolicy) : PermissionPolicy :=
  if restrictivenessRank b ≤ restrictivenessRank a then a else b

/-- Declarative semantics of a compiled glob pattern with JavaScript `RegExp`
dot semantics: a literal token matches its own character, `?` matches exactly
one character that is not a line terminator, and `*` matches zero or more
characters none of which is a line terminator; the whole pattern must consume
the whole string (anchored match). -/
inductive TokSem : List GlobTok → List Char → Prop where
  | nil : TokSem [] []
  | lit {c : Char} {ps : List GlobTok} {s : List Char} :
      TokSem ps s → TokSem (GlobTok.lit c :: ps) (c :: s)
  | one {ps : List GlobTok} {c : Char} {s : List Char} :
      isLineTerminator c = false → TokSem ps s → TokSem (GlobTok.qmark :: ps) (c :: s)
  | starEmpty {ps : List GlobTok} {s : List Char} :
      TokSem ps s → TokSem (GlobTok.star :: ps) s
  | starCons {ps : List GlobTok} {c : Char} {s : List Char} :
      isLineTerminator c = false → TokSem (GlobTok.star :: ps) s →
      TokSem (GlobTok.star :: ps) (c :: s)

/-- The glob semantics the specification describes in section 4.1: as
`TokSem`, but `?` matches exactly one arbitrary character and `*` matches
zero or more arbitrary characters, with no line-terminator restriction. -/
inductive AnyCharTokSem : List GlobTok → List Char → Prop where
  | nil : AnyCharTokSem [] []
  | lit {c : Char} {ps : List GlobTok} {s : List Char} :
      AnyCharTokSem ps s → AnyCharTokSem (GlobTok.lit c :: ps) (c :: s)
  | one {ps : List GlobTok} {c : Char} {s : List Char} :
      AnyCharTokSem ps s → AnyCharTokSem (GlobTok.qmark :: ps) (c :: s)
  | starEmpty {ps : List GlobTok} {s : List Char} :
      AnyCharTokSem ps s → AnyCharTokSem (GlobTok.star :: ps) s
  | starCons {ps : List GlobTok} {c : Char} {s : List Char} :
      AnyCharTokSem (GlobTok.star :: ps) s → AnyCharTokSem (GlobTok.star :: ps) (c :: s)

/-- The language accepted by the pattern regex
`/^([^(]+)(?:\(([^)]*)\))?$/` of `parseToolPattern`, stated declaratively: a
nonempty name free of `'('`, optionally followed by a parenthesized argument
part free of `')'` that ends the string. -/
def ValidPatternShape (pattern : String) : Prop :=
  (pattern.data ≠ [] ∧ '(' ∉ pattern.data) ∨
  (∃ name body : List Char,
    name ≠ [] ∧ '(' ∉ name ∧ ')' ∉ body ∧
    pattern.data = name ++ '(' :: (body ++ [')']))

/-- Reference semantics of one declared argument-pattern key, following the
specification's wording: `"*"` always matches; a string pattern containing a
glob metacharacter is matched as an anchored glob against the string form of
the argument value, a missing (or, via the source's `??` coalescing, `null`)
argument coercing to the empty string; any other pattern requires exact
equality with the raw argument value. -/
def argKeyMatches (args : JSArgs) (key : String) (pattern : JValue) : Bool :=
  if pattern = JValue.str "*" then true
  else
    match pattern with
    | JValue.str p =>
      if p.data.contains '*' ∨ p.data.contains '?' then
        globMatch p (jsString (jsCoalesce (jsGet args key)))
      else decide (jsGet args key = some (JValue.str p))
    | _ => decide (jsGet args key = some pattern)

/-- Reference definition of argument matching, following the specification's
wording: absent patterns always match, otherwise the conjunction of
`argKeyMatches` over all declared keys. -/
def matchesArgumentsRef (args : JSArgs) (patterns : Option JSArgs) : Bool :=
  match patterns with
  | none => true
  | some ps => ps.all fun kp => argKeyMatches args kp.1 kp.2


/-- A dynamic evaluator that always reports `disabled`, used to exhibit the
static/dynamic combination at a concrete input. -/
def dynDisabledEval : ToolPolicy → JSArgs → Option JSArgs → ToolPolicy :=
  fun _ _ _ => ToolPolicy.disabled

/-- A concrete tool carrying `dynDisabledEval` as its dynamic capability. -/
def dynDisabledTool : Tool :=
  ⟨⟨"write_file"⟩, some dynDisabledEval⟩

/-- A concrete tool with no dynamic capability. -/
def sampleReadTool : Tool :=
  ⟨⟨"read_file"⟩, none⟩

/-- A service state whose permissions failed to load (`permissions = null`)
while the `enabled` flag is still set. -/
def disabledService : ToolPermissionsService :=
  ⟨none, true⟩

theorem TokSem_star_iff (ps : List GlobTok) :
    ∀ s : List Char,
      TokSem (GlobTok.star :: ps) s ↔ ∃ t, t ∈ starSuffixes s ∧ TokSem ps t := by
  intro s
  induction s with
  | nil =>
    constructor
    · intro h
      cases h with
      | starEmpty h' => exact ⟨[], by simp [starSuffixes], h'⟩
    · rintro ⟨t, ht, hsem⟩
      simp [starSuffixes] at ht
      subst ht
      exact TokSem.starEmpty hsem
  | cons c cs ih =>
    constructor
    · intro h
      cases h with
      | starEmpty h' => exact ⟨c :: cs, by simp [starSuffixes], h'⟩
      | starCons hc h' =>
        obtain ⟨t, ht, hsem⟩ := ih.mp h'
        refine ⟨t, ?_, hsem⟩
        simp only [starSuffixes, hc, if_false]
        exact List.mem_cons_of_mem _ ht
    · rintro ⟨t, ht, hsem⟩
      simp only [starSuffixes] at ht
      rcases List.mem_cons.mp ht with h1 | h1
      · subst h1
        exact TokSem.starEmpty hsem
      · cases hc : isLineTerminator c with
        | true => rw [hc] at h1; simp at h1
        | false =>
          simp only [hc, if_false] at h1
          exact TokSem.starCons hc (ih.mpr ⟨t, h1, hsem⟩)

theorem tokMatch_iff_TokSem :
    ∀ (toks : List GlobTok) (s : List Char), tokMatch toks s = true ↔ TokSem toks s := by
  intro toks
  induction toks with
  | nil =>
    intro s
    cases s with
    | nil =>
      simp only [tokMatch, List.isEmpty_nil]
      exact ⟨fun _ => TokSem.nil, fun _ => trivial⟩
    | cons c cs =>
      simp only [tokMatch, List.isEmpty_cons]
      constructor
      · intro h
        exact absurd h (by decide)
      · intro h
        cases h
  | cons t ps ih =>
    cases t with
    | lit c =>
      intro s
      cases s with
      | nil =>
        simp only [tokMatch]
        constructor
        · intro h
          exact absurd h (by decide)
        · intro h
          cases h
      | cons d ds =>
        simp only [tokMatch]
        constructor
        · intro h
          by_cases hcd : c = d
          · rw [if_pos hcd] at h
            subst hcd
            exact TokSem.lit ((ih ds).mp h)
          · rw [if_neg hcd] at h
            exact absurd h (by decide)
        · intro h
          cases h with
          | lit h' =>
            rw [if_pos rfl]
            exact (ih ds).mpr h'
    | qmark =>
      intro s
      cases s with
      | nil =>
        simp only [tokMatch]
        constructor
        · intro h
          exact absurd h (by decide)
        · intro h
          cases h
      | cons d ds =>
        simp only [tokMatch]
        constructor
        · intro h
          cases hld : isLineTerminator d with
          | true => rw [if_pos hld] at h; exact absurd h (by decide)
          | false =>
            rw [if_neg (by simp [hld])] at h
            exact TokSem.one hld ((ih ds).mp h)
        · intro h
          cases h with
          | one hld h' =>
            rw [if_neg (by simp [hld])]
            exact (ih ds).mpr h'
    | star =>
      intro s
      simp only [tokMatch]
      rw [List.any_eq_true]
      constructor
      · intro h
        obtain ⟨t, ht, htm⟩ := h
        exact (TokSem_star_iff ps s).mpr ⟨t, ht, (ih t).mp htm⟩
      · intro h
        obtain ⟨t, ht, hsem⟩ := (TokSem_star_iff ps s).mp h
        exact ⟨t, ht, (ih t).mpr hsem⟩

theorem findMatchedPolicy_eq_find (toolName : String) (args : JSArgs) :
    ∀ policies : List ToolPermissionPolicy,
      findMatchedPolicy toolName args policies =
        policies.find? fun policy =>
          matchesToolPattern toolName policy.tool args
            && matchesArguments args policy.argumentMatches := by
  intro policies
  induction policies with
  | nil => rfl
  | cons p rest ih =>
    cases h : matchesToolPattern toolName p.tool args
        && matchesArguments args p.argumentMatches with
    | true => simp [findMatchedPolicy, List.find?, h]
    | false => simp [findMatchedPolicy, List.find?, h, ih]

theorem length_filter_partition {α : Type} (p : α → Bool) (l : List α) :
    (l.filter p).length + (l.filter fun a => !(p a)).length = l.length := by
  induction l with
  | nil => rfl
  | cons a l ih =>
    cases h : p a <;> simp [List.filter_cons, h] <;> omega

theorem matchesArgumentsLoop_cons (args : JSArgs) (key : String) (pattern : JValue)
    (rest : List (String × JValue)) :
    matchesArgumentsLoop args ((key, pattern) :: rest) =
      (argKeyMatches args key pattern && matchesArgumentsLoop args rest) := by
  by_cases h1 : pattern = JValue.str "*"
  · simp only [matchesArgumentsLoop, argKeyMatches, if_pos h1]
    simp
  · cases pattern with
    | str p =>
      simp only [matchesArgumentsLoop, argKeyMatches, if_neg h1]
      by_cases h2 : p.data.contains '*' ∨ p.data.contains '?'
      · rw [if_pos h2, if_pos h2]
        cases hg : globMatch p (jsString (jsCoalesce (jsGet args key))) <;> simp [hg]
      · rw [if_neg h2, if_neg h2]
        by_cases h3 : jsGet args key = some (JValue.str p) <;> simp [h3]
    | num n =>
      simp only [matchesArgumentsLoop, argKeyMatches, if_neg h1]
      by_cases h3 : jsGet args key = some (JValue.num n) <;> simp [h3]
    | bool b =>
      simp only [matchesArgumentsLoop, argKeyMatches, if_neg h1]
      by_cases h3 : jsGet args key = some (JValue.bool b) <;> simp [h3]
    | null =>
      simp only [matchesArgumentsLoop, argKeyMatches, if_neg h1]
      by_cases h3 : jsGet args key = some JValue.null <;> simp [h3]

theorem dropWhile_head_false {α : Type} (p : α → Bool) :
    ∀ (l : List α) (c : α) (cs : List α), l.dropWhile p = c :: cs → p c = false := by
  intro l
  induction l with
  | nil =>
    intro c cs h
    simp [List.dropWhile] at h
  | cons a l ih =>
    intro c cs h
    rw [List.dropWhile_cons] at h
    by_cases ha : p a = true
    · rw [if_pos ha] at h
      exact ih c cs h
    · rw [if_neg ha] at h
      injection h with h1 _
      subst h1
      exact Bool.eq_false_iff.mpr ha

theorem takeWhile_eq_self_of_all {α : Type} (p : α → Bool) :
    ∀ l : List α, (∀ x ∈ l, p x = true) → l.takeWhile p = l ∧ l.dropWhile p = [] := by
  intro l
  induction l with
  | nil => intro _; exact ⟨rfl, rfl⟩
  | cons a l ih =>
    intro h
    have ha : p a = true := h a (by simp)
    have ih' := ih fun x hx => h x (by simp [hx])
    rw [List.takeWhile_cons, List.dropWhile_cons]
    simp [ha, ih'.1, ih'.2]

theorem takeWhile_append_of_all {α : Type} (p : α → Bool)
    (n : List α) (c : α) (r : List α) (hn : ∀ x ∈ n, p x = true) (hc : p c = false) :
    (n ++ c :: r).takeWhile p = n ∧ (n ++ c :: r).dropWhile p = c :: r := by
  induction n with
  | nil =>
    rw [List.nil_append]
    rw [List.takeWhile_cons, List.dropWhile_cons]
    simp [hc]
  | cons a n ih =>
    have ha : p a = true := hn a (by simp)
    have ih' := ih fun x hx => hn x (by simp [hx])
    rw [List.cons_append, List.takeWhile_cons, List.dropWhile_cons]
    simp [ha, ih'.1, ih'.2]


theorem getLast?_decomp {α : Type} :
    ∀ (l : List α) (x : α), l.getLast? = some x → l.dropLast ++ [x] = l := by
  intro l
  induction l with
  | nil =>
    intro x h
    cases h
  | cons a l ih =>
    intro x h
    cases l with
    | nil =>
      simp only [List.getLast?_singleton, Option.some.injEq] at h
      subst h
      rfl
    | cons b m =>
      rw [List.getLast?_cons_cons] at h
      have := ih x h
      simp only [List.dropLast_cons₂, List.cons_append, this]

theorem toolPatternMatch_isSome_iff (pattern : String) :
    (toolPatternMatch pattern).isSome = true ↔ ValidPatternShape pattern := by
  constructor
  · intro h
    obtain ⟨v, hv⟩ := Option.isSome_iff_exists.mp h
    simp only [toolPatternMatch] at hv
    split at hv
    · cases hv
    · rename_i hn
      split at hv
      · rename_i hr
        left
        have hdata : pattern.data = pattern.data.takeWhile (fun c => c != '(') := by
          conv_lhs => rw [← List.takeWhile_append_dropWhile (p := fun c => c != '(')
            (l := pattern.data)]
          rw [hr, List.append_nil]
        constructor
        · rw [hdata]
          exact hn
        · intro hmem
          rw [hdata] at hmem
          have := List.mem_takeWhile_imp hmem
          simp at this
      · rename_i r body hr
        split at hv
        · rename_i hcond
          right
          have hrfalse : (fun c => c != '(') r = false :=
            dropWhile_head_false (fun c => c != '(') pattern.data r body hr
          have hrparen : r = '(' := by simpa using hrfalse
          refine ⟨pattern.data.takeWhile (fun c => c != '('), body.dropLast, hn, ?_, ?_, ?_⟩
          · intro hmem
            have := List.mem_takeWhile_imp hmem
            simp at this
          · intro hmem
            have := List.all_eq_true.mp hcond.2 _ hmem
            simp at this
          · have hbody : body.dropLast ++ [')'] = body := getLast?_decomp body ')' hcond.1
            conv_lhs => rw [← List.takeWhile_append_dropWhile (p := fun c => c != '(')
              (l := pattern.data)]
            rw [hr, hrparen, hbody]
        · cases hv
  · intro h
    simp only [toolPatternMatch]
    rcases h with ⟨hne, hnotin⟩ | ⟨name, body, hname, hnoparen, hnoclose, hdata⟩
    · have hall : ∀ x ∈ pattern.data, (fun c => c != '(') x = true := by
        intro x hx
        simp only [bne_iff_ne, ne_eq]
        intro hxeq
        exact hnotin (hxeq ▸ hx)
      obtain ⟨htake, hdrop⟩ := takeWhile_eq_self_of_all _ pattern.data hall
      rw [htake, hdrop]
      rw [if_neg hne]
      rfl
    · have hall : ∀ x ∈ name, (fun c => c != '(') x = true := by
        intro x hx
        simp only [bne_iff_ne, ne_eq]
        intro hxeq
        exact hnoparen (hxeq ▸ hx)
      have hc : (fun c => c != '(') '(' = false := by decide
      obtain ⟨htake, hdrop⟩ := takeWhile_append_of_all _ name '(' (body ++ [')']) hall hc
      rw [hdata, htake, hdrop]
      rw [if_neg hname]
      have hcond : (body ++ [')']).getLast? = some ')'
          ∧ ((body ++ [')']).dropLast.all fun c => c != ')') = true := by
        constructor
        · exact List.getLast?_concat _
        · rw [List.dropLast_concat]
          exact List.all_eq_true.mpr fun x hx => by
            simp only [bne_iff_ne, ne_eq]
            intro hxeq
            exact hnoclose (hxeq ▸ hx)
      show (if (body ++ [')']).getLast? = some ')'
          ∧ ((body ++ [')']).dropLast.all fun c => c != ')') = true then
        some (name, some (body ++ [')']).dropLast) else none).isSome = true
      rw [if_pos hcond]
      rfl


theorem combine_eq_moreRestrictive (B D : PermissionPolicy) (m : Option ToolPermissionPolicy) :
    (if B = PermissionPolicy.exclude ∨ D = PermissionPolicy.exclude then
       (⟨PermissionPolicy.exclude, m⟩ : PermissionCheckResult)
     else if B = PermissionPolicy.ask ∨ D = PermissionPolicy.ask then
       (⟨PermissionPolicy.ask, m⟩ : PermissionCheckResult)
     else (⟨PermissionPolicy.allow, m⟩ : PermissionCheckResult)).permission
      = moreRestrictive B D := by
  cases B <;> cases D <;> rfl

theorem rank_le_moreRestrictive (B D : PermissionPolicy) :
    restrictivenessRank B ≤ restrictivenessRank (moreRestrictive B D) := by
  cases B <;> cases D <;> decide

/-- Claim C9: whenever the service is disabled (`isEnabled()` is false, i.e.
the `enabled` flag is unset or no permissions are loaded), `checkPermission`
returns `allow` with no matched policy, for every tool and arguments, without
consulting any policy or the tool's dynamic evaluator. -/
theorem service_disabled_checkPermission_allow (service : ToolPermissionsService)
    (tool : Tool) (toolArguments : JSArgs) (processedArgs : Option JSArgs)
    (h : service.isEnabled = false) :
    service.checkPermission tool toolArguments processedArgs =
      ⟨PermissionPolicy.allow, none⟩ := by
  obtain ⟨perms, enabled⟩ := service
  simp only [ToolPermissionsService.isEnabled] at h
  cases enabled with
  | false => rfl
  | true =>
    cases perms with
    | none => rfl
    | some p => simp at h

/-- Witness for C9: a service whose permissions failed to load is disabled and
answers `allow` with no matched policy. -/
theorem service_disabled_checkPermission_allow_witness :
    disabledService.isEnabled = false
    ∧ disabledService.checkPermission sampleReadTool [] none =
        ⟨PermissionPolicy.allow, none⟩ :=
  ⟨rfl, service_disabled_checkPermission_allow disabledService sampleReadTool [] none rfl⟩

/-- Claim C7: `matchesArguments` agrees with the specification's reference
definition: absent patterns always match; for each declared key the pattern
`"*"` always matches, a string pattern with glob metacharacters is matched as
an anchored glob against the string form of the argument value (a missing
argument coercing to the empty string), and any other pattern requires exact
equality with the raw argument value; the result is the conjunction over all
declared keys. -/
theorem matchesArguments_matches_reference (args : JSArgs) (patterns : Option JSArgs) :
    matchesArguments args patterns = matchesArgumentsRef args patterns := by
  cases patterns with
  | none => rfl
  | some ps =>
    simp only [matchesArguments, matchesArgumentsRef]
    induction ps with
    | nil => rfl
    | cons kp rest ih =>
      obtain ⟨key, pattern⟩ := kp
      rw [matchesArgumentsLoop_cons, List.all_cons, ih]

/-- Claim C3: with no dynamic-evaluation capability supplied,
`checkToolPermission` returns the permission and matched policy of the first
rule (in list order) whose tool pattern and argument patterns match, and
`allow` with no matched policy when no rule matches — in particular for the
empty policy list. -/
theorem checkToolPermission_static_first_match (toolName : String) (args : JSArgs)
    (perms : ToolPermissions) (pargs : Option JSArgs) (tool : Option Tool)
    (h : tool.bind Tool.evaluateToolCallPolicy = none) :
    checkToolPermission toolName args perms pargs tool =
      ⟨((perms.policies.find? fun policy =>
            matchesToolPattern toolName policy.tool args
              && matchesArguments args policy.argumentMatches).map
          ToolPermissionPolicy.permission).getD PermissionPolicy.allow,
        perms.policies.find? fun policy =>
          matchesToolPattern toolName policy.tool args
            && matchesArguments args policy.argumentMatches⟩
    ∧ (perms.policies = [] →
        checkToolPermission toolName args perms pargs tool =
          ⟨PermissionPolicy.allow, none⟩) := by
  constructor
  · simp only [checkToolPermission, h]
    rw [findMatchedPolicy_eq_find]
  · intro hnil
    simp only [checkToolPermission, h, hnil, findMatchedPolicy]
    rfl

/-- Witness for C3: a concrete evaluation with an empty policy list and no
tool supplied returns `allow` with no matched policy. -/
theorem checkToolPermission_static_first_match_witness :
    (none : Option Tool).bind Tool.evaluateToolCallPolicy = none
    ∧ (checkToolPermission "read_file" [] ⟨[]⟩ none none =
        ⟨((([] : List ToolPermissionPolicy).find? fun policy =>
              matchesToolPattern "read_file" policy.tool []
                && matchesArguments [] policy.argumentMatches).map
            ToolPermissionPolicy.permission).getD PermissionPolicy.allow,
          ([] : List ToolPermissionPolicy).find? fun policy =>
            matchesToolPattern "read_file" policy.tool []
              && matchesArguments [] policy.argumentMatches⟩
       ∧ ((⟨[]⟩ : ToolPermissions).policies = [] →
          checkToolPermission "read_file" [] ⟨[]⟩ none none =
            ⟨PermissionPolicy.allow, none⟩)) :=
  ⟨rfl, checkToolPermission_static_first_match "read_file" [] ⟨[]⟩ none none rfl⟩

/-- Claim C2: when the tool exposes a dynamic-evaluation capability, the
returned permission is the more restrictive of the static base permission
(first matching rule, or `allow` when none matches) and the dynamic result,
under the total order `exclude > ask > allow`; in particular the final
permission is never less restrictive than the static base. -/
theorem checkToolPermission_dynamic_most_restrictive (toolName : String)
    (args : JSArgs) (perms : ToolPermissions) (pargs : Option JSArgs)
    (t : Tool) (f : ToolPolicy → JSArgs → Option JSArgs → ToolPolicy)
    (hf : t.evaluateToolCallPolicy = some f) :
    (checkToolPermission toolName args perms pargs (some t)).permission =
      moreRestrictive
        (((findMatchedPolicy toolName args perms.policies).map
            ToolPermissionPolicy.permission).getD PermissionPolicy.allow)
        (toolPolicyToPermissionPolicy
          (f (permissionPolicyToToolPolicy
                (((findMatchedPolicy toolName args perms.policies).map
                    ToolPermissionPolicy.permission).getD PermissionPolicy.allow))
            args pargs))
    ∧ restrictivenessRank
        (((findMatchedPolicy toolName args perms.policies).map
            ToolPermissionPolicy.permission).getD PermissionPolicy.allow)
      ≤ restrictivenessRank
          (checkToolPermission toolName args perms pargs (some t)).permission := by
  have hbind : (some t).bind Tool.evaluateToolCallPolicy = some f := hf
  have h1 : (checkToolPermission toolName args perms pargs (some t)).permission =
      moreRestrictive
        (((findMatchedPolicy toolName args perms.policies).map
            ToolPermissionPolicy.permission).getD PermissionPolicy.allow)
        (toolPolicyToPermissionPolicy
          (f (permissionPolicyToToolPolicy
                (((findMatchedPolicy toolName args perms.policies).map
                    ToolPermissionPolicy.permission).getD PermissionPolicy.allow))
            args pargs)) := by
    simp only [checkToolPermission, hbind]
    exact combine_eq_moreRestrictive _ _ _
  refine ⟨h1, ?_⟩
  rw [h1]
  exact rank_le_moreRestrictive _ _

/-- Witness for C2: a static `allow` base (empty policy list) combined with a
dynamic `disabled` answer gives the more restrictive `exclude`. -/
theorem checkToolPermission_dynamic_most_restrictive_witness :
    dynDisabledTool.evaluateToolCallPolicy = some dynDisabledEval
    ∧ ((checkToolPermission "write_file" [] ⟨[]⟩ none (some dynDisabledTool)).permission =
        moreRestrictive
          (((findMatchedPolicy "write_file" [] (⟨[]⟩ : ToolPermissions).policies).map
              ToolPermissionPolicy.permission).getD PermissionPolicy.allow)
          (toolPolicyToPermissionPolicy
            (dynDisabledEval (permissionPolicyToToolPolicy
                  (((findMatchedPolicy "write_file" [] (⟨[]⟩ : ToolPermissions).policies).map
                      ToolPermissionPolicy.permission).getD PermissionPolicy.allow))
              [] none))
      ∧ restrictivenessRank
          (((findMatchedPolicy "write_file" [] (⟨[]⟩ : ToolPermissions).policies).map
              ToolPermissionPolicy.permission).getD PermissionPolicy.allow)
        ≤ restrictivenessRank
            (checkToolPermission "write_file" [] ⟨[]⟩ none (some dynDisabledTool)).permission) :=
  ⟨rfl, checkToolPermission_dynamic_most_restrictive "write_file" [] ⟨[]⟩ none
    dynDisabledTool dynDisabledEval rfl⟩

/-- Claim C6: `filterExcludedTools` returns the subsequence of the input
consisting exactly of the tools whose empty-argument evaluation (with the tool
itself as dynamic evaluator) is not `exclude`; the output length is the input
length minus the number of excluded tools. -/
theorem filterExcludedTools_spec (tools : List Tool) (perms : ToolPermissions) :
    (filterExcludedTools tools perms).Sublist tools
    ∧ (∀ t, t ∈ filterExcludedTools tools perms ↔ t ∈ tools
        ∧ (checkToolPermission t.function.name [] perms none (some t)).permission
            ≠ PermissionPolicy.exclude)
    ∧ (filterExcludedTools tools perms).length
        = tools.length - (tools.filter fun t =>
            decide ((checkToolPermission t.function.name [] perms none (some t)).permission
              = PermissionPolicy.exclude)).length := by
  refine ⟨List.filter_sublist _, ?_, ?_⟩
  · intro t
    simp [filterExcludedTools, List.mem_filter]
  · have hpart := length_filter_partition
      (fun t : Tool =>
        decide ((checkToolPermission t.function.name [] perms none (some t)).permission
          = PermissionPolicy.exclude)) tools
    have hfun : (fun t : Tool =>
        decide ((checkToolPermission t.function.name [] perms none (some t)).permission
          ≠ PermissionPolicy.exclude))
        = fun t : Tool =>
          !(decide ((checkToolPermission t.function.name [] perms none (some t)).permission
            = PermissionPolicy.exclude)) := by
      funext t
      exact decide_not
    simp only [filterExcludedTools]
    rw [hfun]
    omega

/-- Claim C4: normalizing
`{exclude: ["run_terminal_command(sudo*)"], ask: ["run_terminal_command"], allow: ["*"]}`
yields the three rules in exclude/ask/allow order, with the argument literal
decomposed under the tool-specific key `"command"`; evaluating against that
list gives `exclude` for a `sudo` command, `ask` for `ls`, and `allow` for
`read_file`. -/
theorem end_to_end_yaml_policies :
    yamlConfigToPolicies
        ⟨some ["*"], some ["run_terminal_command"], some ["run_terminal_command(sudo*)"]⟩ =
      Except.ok
        [⟨"run_terminal_command", PermissionPolicy.exclude,
            some [("command", JValue.str "sudo*")]⟩,
         ⟨"run_terminal_command", PermissionPolicy.ask, none⟩,
         ⟨"*", PermissionPolicy.allow, none⟩]
    ∧ (checkToolPermission "run_terminal_command" [("command", JValue.str "sudo rm -rf /")]
        ⟨[⟨"run_terminal_command", PermissionPolicy.exclude,
            some [("command", JValue.str "sudo*")]⟩,
          ⟨"run_terminal_command", PermissionPolicy.ask, none⟩,
          ⟨"*", PermissionPolicy.allow, none⟩]⟩ none none).permission
        = PermissionPolicy.exclude
    ∧ (checkToolPermission "run_terminal_command" [("command", JValue.str "ls")]
        ⟨[⟨"run_terminal_command", PermissionPolicy.exclude,
            some [("command", JValue.str "sudo*")]⟩,
          ⟨"run_terminal_command", PermissionPolicy.ask, none⟩,
          ⟨"*", PermissionPolicy.allow, none⟩]⟩ none none).permission
        = PermissionPolicy.ask
    ∧ (checkToolPermission "read_file" []
        ⟨[⟨"run_terminal_command", PermissionPolicy.exclude,
            some [("command", JValue.str "sudo*")]⟩,
          ⟨"run_terminal_command", PermissionPolicy.ask, none⟩,
          ⟨"*", PermissionPolicy.allow, none⟩]⟩ none none).permission
        = PermissionPolicy.allow :=
  ⟨rfl, rfl, rfl, rfl⟩


theorem terminal_paren_data_ne (p : String) (s : String) (hs : s.data.length < 22) :
    "run_terminal_command(" ++ p ++ ")" ≠ s := by
  intro he
  have hdata : ("run_terminal_command(" ++ p ++ ")").data
      = "run_terminal_command(".data ++ (p.data ++ [')']) := by
    rw [String.data_append, String.data_append, List.append_assoc]
  have h1 := congrArg String.data he
  rw [hdata] at h1
  have h2 := congrArg List.length h1
  rw [List.length_append, List.length_append, List.length_singleton] at h2
  have h21 : ("run_terminal_command(".data).length = 21 := rfl
  rw [h21] at h2
  omega

/-- Claim C1 counterexample: the pattern `"run_terminal_command(ls)"` is of the
terminal special shape and the tool name `"run_terminal_command(ls)"` does not
identify the terminal tool, yet `matchesToolPattern` returns `true` (the exact
name comparison `pattern === toolName` fires before the special-shape branch). -/
theorem matchesToolPattern_terminal_shape_counterexample :
    matchesToolPattern "run_terminal_command(ls)" "run_terminal_command(ls)" [] = true
    ∧ (terminalCommandMatch "run_terminal_command(ls)").isSome = true
    ∧ "run_terminal_command(ls)" ≠ "run_terminal_command"
    ∧ "run_terminal_command(ls)" ≠ "runTerminalCommand" := by
  refine ⟨rfl, rfl, ?_, ?_⟩ <;> decide

/-- Claim C1 (amended): for every tool name that does not identify the terminal
tool, a pattern of the terminal special shape never matches — unless the
pattern string is literally equal to the tool name itself, in which case the
exact-name rule fires first. -/
theorem matchesToolPattern_terminal_shape_nonterminal (toolName pattern : String)
    (args : JSArgs)
    (h1 : toolName ≠ "run_terminal_command") (h2 : toolName ≠ "runTerminalCommand")
    (h3 : (terminalCommandMatch pattern).isSome = true) (h4 : pattern ≠ toolName) :
    matchesToolPattern toolName pattern args = false := by
  have h5 : pattern ≠ "*" := by
    intro he
    rw [he] at h3
    exact absurd h3 (by decide)
  obtain ⟨cp, hcp⟩ := Option.isSome_iff_exists.mp h3
  simp only [matchesToolPattern, if_neg h5, if_neg h4, hcp]
  cases hg : jsGet args "command" with
  | none => rfl
  | some command =>
    have hno : ¬((toolName = "runTerminalCommand" ∨ toolName = "run_terminal_command")
        ∧ jsTruthy command = true) := by
      rintro ⟨hor, _⟩
      rcases hor with h | h
      · exact h2 h
      · exact h1 h
    simp only [if_neg hno]

/-- Witness for the amended C1: a non-terminal tool name against a concrete
terminal-shape pattern different from the name. -/
theorem matchesToolPattern_terminal_shape_nonterminal_witness :
    ("read_file" ≠ "run_terminal_command" ∧ "read_file" ≠ "runTerminalCommand"
      ∧ (terminalCommandMatch "run_terminal_command(ls)").isSome = true
      ∧ "run_terminal_command(ls)" ≠ "read_file")
    ∧ matchesToolPattern "read_file" "run_terminal_command(ls)" [] = false :=
  ⟨⟨by decide, by decide, rfl, by decide⟩,
   matchesToolPattern_terminal_shape_nonterminal "read_file" "run_terminal_command(ls)" []
     (by decide) (by decide) rfl (by decide)⟩

/-- Claim C8 counterexample: under the claim's glob semantics (`*` matching
zero or more arbitrary characters) the pattern `"a*b"` matches the name
`"a\nb"`, yet `matchesToolPattern` returns `false`: the compiled JavaScript
`.*` never matches across a line terminator. -/
theorem matchesToolPattern_glob_counterexample :
    matchesToolPattern "a\nb" "a*b" [] = false
    ∧ "a*b" ≠ "*" ∧ "a*b" ≠ "a\nb"
    ∧ terminalCommandMatch "a*b" = none
    ∧ "a*b".data.contains '*' = true
    ∧ AnyCharTokSem (tokenize "a*b".data) "a\nb".data := by
  refine ⟨rfl, by decide, by decide, rfl, rfl, ?_⟩
  show AnyCharTokSem [GlobTok.lit 'a', GlobTok.star, GlobTok.lit 'b'] ['a', '\n', 'b']
  exact AnyCharTokSem.lit (AnyCharTokSem.starCons (AnyCharTokSem.starEmpty
    (AnyCharTokSem.lit AnyCharTokSem.nil)))

/-- Claim C8 (amended): for a pattern that is not `"*"`, not the tool name and
not of the terminal shape, `matchesToolPattern` returns true exactly when the
pattern contains a glob metacharacter and the name matches it under anchored
glob semantics in which `*` matches zero or more non-line-terminator
characters and `?` exactly one such character (JavaScript dot semantics);
a pattern without glob metacharacters never matches. -/
theorem matchesToolPattern_glob_iff (toolName pattern : String) (args : JSArgs)
    (h1 : pattern ≠ "*") (h2 : pattern ≠ toolName)
    (h3 : terminalCommandMatch pattern = none) :
    matchesToolPattern toolName pattern args = true ↔
      ((pattern.data.contains '*' = true ∨ pattern.data.contains '?' = true)
        ∧ TokSem (tokenize pattern.data) toolName.data) := by
  simp only [matchesToolPattern, if_neg h1, if_neg h2, h3]
  by_cases hc : pattern.data.contains '*' = true ∨ pattern.data.contains '?' = true
  · rw [if_pos hc]
    simp only [globMatch]
    rw [tokMatch_iff_TokSem]
    exact ⟨fun h => ⟨hc, h⟩, fun h => h.2⟩
  · rw [if_neg hc]
    constructor
    · intro h
      exact absurd h (by decide)
    · rintro ⟨hor, _⟩
      exact absurd hor hc

/-- Witness for the amended C8: the spec's own example `"mcp__*"` against
`"mcp__server1"`. -/
theorem matchesToolPattern_glob_iff_witness :
    ("mcp__*" ≠ "*" ∧ "mcp__*" ≠ "mcp__server1" ∧ terminalCommandMatch "mcp__*" = none)
    ∧ (matchesToolPattern "mcp__server1" "mcp__*" [] = true ↔
        (("mcp__*".data.contains '*' = true ∨ "mcp__*".data.contains '?' = true)
          ∧ TokSem (tokenize "mcp__*".data) "mcp__server1".data)) :=
  ⟨⟨by decide, by decide, rfl⟩,
   matchesToolPattern_glob_iff "mcp__server1" "mcp__*" [] (by decide) (by decide) rfl⟩

/-- Claim C10: a terminal-shape pattern built from any argument pattern `p`
never matches a call whose `command` argument is absent, `null`, or the empty
string, even when the tool is the terminal tool and even when `p` is `"*"`:
the truthiness test on the `command` argument rejects all of these. -/
theorem terminal_pattern_requires_truthy_command (p toolName : String) (args : JSArgs)
    (hname : toolName = "run_terminal_command" ∨ toolName = "runTerminalCommand")
    (hcmd : jsGet args "command" = none ∨ jsGet args "command" = some JValue.null
      ∨ jsGet args "command" = some (JValue.str "")) :
    matchesToolPattern toolName ("run_terminal_command(" ++ p ++ ")") args = false := by
  have h5 : ("run_terminal_command(" ++ p ++ ")") ≠ "*" :=
    terminal_paren_data_ne p "*" (by decide)
  have h4 : ("run_terminal_command(" ++ p ++ ")") ≠ toolName := by
    rcases hname with hn | hn <;> rw [hn]
    · exact terminal_paren_data_ne p "run_terminal_command" (by decide)
    · exact terminal_paren_data_ne p "runTerminalCommand" (by decide)
  simp only [matchesToolPattern, if_neg h5, if_neg h4]
  cases hshape : terminalCommandMatch ("run_terminal_command(" ++ p ++ ")") with
  | some cp =>
    rcases hcmd with h | h | h <;> rw [h]
    · have hno : ¬((toolName = "runTerminalCommand" ∨ toolName = "run_terminal_command")
          ∧ jsTruthy JValue.null = true) := by
        rintro ⟨_, hbad⟩
        exact absurd hbad (by decide)
      simp only [if_neg hno]
    · have hno : ¬((toolName = "runTerminalCommand" ∨ toolName = "run_terminal_command")
          ∧ jsTruthy (JValue.str "") = true) := by
        rintro ⟨_, hbad⟩
        exact absurd hbad (by decide)
      simp only [if_neg hno]
  | none =>
    by_cases hc : ("run_terminal_command(" ++ p ++ ")").data.contains '*' = true
        ∨ ("run_terminal_command(" ++ p ++ ")").data.contains '?' = true
    · rw [if_pos hc]
      simp only [globMatch]
      have hdata : ("run_terminal_command(" ++ p ++ ")").data
          = "run_terminal_command(".data ++ (p.data ++ [')']) := by
        rw [String.data_append, String.data_append, List.append_assoc]
      rw [hdata]
      simp only [tokenize, List.map_append]
      have htok : (("run_terminal_command(".data).map fun c =>
          if c = '*' then GlobTok.star
          else if c = '?' then GlobTok.qmark
          else GlobTok.lit c) =
        [GlobTok.lit 'r', GlobTok.lit 'u', GlobTok.lit 'n', GlobTok.lit '_',
         GlobTok.lit 't', GlobTok.lit 'e', GlobTok.lit 'r', GlobTok.lit 'm',
         GlobTok.lit 'i', GlobTok.lit 'n', GlobTok.lit 'a', GlobTok.lit 'l',
         GlobTok.lit '_', GlobTok.lit 'c', GlobTok.lit 'o', GlobTok.lit 'm',
         GlobTok.lit 'm', GlobTok.lit 'a', GlobTok.lit 'n', GlobTok.lit 'd',
         GlobTok.lit '('] := rfl
      rw [htok]
      rcases hname with hn | hn <;> rw [hn]
      · have hnd : "run_terminal_command".data
            = ['r', 'u', 'n', '_', 't', 'e', 'r', 'm', 'i', 'n',
               'a', 'l', '_', 'c', 'o', 'm', 'm', 'a', 'n', 'd'] := rfl
        rw [hnd]
        simp [tokMatch, List.cons_append]
      · have hnd : "runTerminalCommand".data
            = ['r', 'u', 'n', 'T', 'e', 'r', 'm', 'i', 'n', 'a',
               'l', 'C', 'o', 'm', 'm', 'a', 'n', 'd'] := rfl
        rw [hnd]
        simp [tokMatch, List.cons_append]
    · rw [if_neg hc]

/-- Witness for C10: the terminal tool with an empty-string `command`
argument never matches `run_terminal_command(ls)`. -/
theorem terminal_pattern_requires_truthy_command_witness :
    ("run_terminal_command" = "run_terminal_command"
        ∨ "run_terminal_command" = "runTerminalCommand")
    ∧ (jsGet [("command", JValue.str "")] "command" = none
        ∨ jsGet [("command", JValue.str "")] "command" = some JValue.null
        ∨ jsGet [("command", JValue.str "")] "command" = some (JValue.str ""))
    ∧ matchesToolPattern "run_terminal_command" ("run_terminal_command(" ++ "ls" ++ ")")
        [("command", JValue.str "")] = false :=
  ⟨Or.inl rfl, Or.inr (Or.inr rfl),
   terminal_pattern_requires_truthy_command "ls" "run_terminal_command"
     [("command", JValue.str "")] (Or.inl rfl) (Or.inr (Or.inr rfl))⟩

/-- Claim C5 counterexample: `"foo)"` has a closing parenthesis with no
matching opening one, yet `parseToolPattern` accepts it (the `[^(]+` name part
of the pattern regex happily swallows `')'`), returning a rule rather than
raising an error. -/
theorem parseToolPattern_unbalanced_close_counterexample :
    parseToolPattern "foo)" PermissionPolicy.allow =
      Except.ok ⟨"foo)", PermissionPolicy.allow, none⟩
    ∧ "foo)".data.contains ')' = true
    ∧ "foo)".data.contains '(' = false :=
  ⟨rfl, rfl, rfl⟩

/-- Claim C5 (amended): `parseToolPattern` raises an error exactly for the
patterns outside the language of its regex — those that are not a nonempty
`'('`-free name, optionally followed by a final parenthesized `')'`-free
argument part.  In particular an unmatched opening parenthesis is an error,
while an unmatched closing parenthesis is absorbed into the tool name and
accepted. -/
theorem parseToolPattern_error_iff (pattern : String) (permission : PermissionPolicy) :
    (∃ msg, parseToolPattern pattern permission = Except.error msg)
      ↔ ¬ ValidPatternShape pattern := by
  constructor
  · rintro ⟨msg, hmsg⟩ hvalid
    have hsome := (toolPatternMatch_isSome_iff pattern).mpr hvalid
    obtain ⟨v, hv⟩ := Option.isSome_iff_exists.mp hsome
    obtain ⟨nm, argsOpt⟩ := v
    simp only [parseToolPattern, hv] at hmsg
    cases argsOpt with
    | none => exact Except.noConfusion hmsg
    | some a =>
      by_cases ht : jsTrim (String.mk a) = ""
      · simp only [if_pos ht] at hmsg
        exact Except.noConfusion hmsg
      · simp only [if_neg ht] at hmsg
        exact Except.noConfusion hmsg
  · intro hvalid
    have hnone : toolPatternMatch pattern = none := by
      rw [← Option.not_isSome_iff_eq_none, toolPatternMatch_isSome_iff]
      exact hvalid
    exact ⟨"Invalid tool pattern: " ++ pattern, by simp [parseToolPattern, hnone]⟩

end ContinuePermissions
